import Mathlib

set_option maxHeartbeats 1600000

/-! Shallow embedding of the mullvad-viz relay ingestion pipeline.

The definitions below are translated from tools/fetch-relays.js and
tools/update-city-coords.js. JavaScript values that can appear in the
parsed JSON records are modelled by JVal; JavaScript numbers keep their
NaN and Infinity inhabitants (JSON.parse can yield Infinity from an
overflowing literal such as 1e999). Property absence is modelled by
Option JVal (absent = undefined). Runtime TypeErrors (for example
calling toUpperCase on a non-string) are modelled with Except String. -/

/-- JavaScript numbers: a finite value (modelled exactly as a rational),
NaN, Infinity, or -Infinity. -/
inductive JSNum where
  | fin (q : ℚ)
  | nan
  | inf
  | ninf
deriving DecidableEq, Repr

/-- A JSON/JavaScript primitive value as it appears in parsed records. -/
inductive JVal where
  | null
  | bool (b : Bool)
  | num (n : JSNum)
  | str (s : String)
deriving DecidableEq, Repr

/-- JavaScript ToString on a number (only its shape matters for the
pipeline: it is never equal to any of the protocol or city keys). -/
def jsNumToString : JSNum → String
  | .fin q => toString q
  | .nan => "NaN"
  | .inf => "Infinity"
  | .ninf => "-Infinity"

/-- JavaScript ToString, as used by property-key coercion and regex test. -/
def jvalToString : JVal → String
  | .null => "null"
  | .bool true => "true"
  | .bool false => "false"
  | .num n => jsNumToString n
  | .str s => s

/-- JavaScript truthiness of a present value. -/
def jTruthyV : JVal → Bool
  | .null => false
  | .bool b => b
  | .num (.fin q) => q != 0
  | .num .nan => false
  | .num .inf => true
  | .num .ninf => true
  | .str s => s != ""

/-- JavaScript truthiness of a possibly absent (undefined) value. -/
def jTruthy : Option JVal → Bool
  | none => false
  | some v => jTruthyV v

/-- Case conversion character by character, as the JavaScript string
methods do on the ASCII keys of this pipeline. Defined over the
character list so that it evaluates by structural recursion. -/
def strUpper (s : String) : String := String.mk (s.data.map Char.toUpper)

/-- Lowercasing, character by character. -/
def strLower (s : String) : String := String.mk (s.data.map Char.toLower)

/-- JavaScript a || b where a may be absent and b is a fixed value. -/
def jorV (a : Option JVal) (b : JVal) : JVal :=
  match a with
  | some v => if jTruthyV v then v else b
  | none => b

/-- JavaScript a || b on two present values. -/
def vOr (a b : JVal) : JVal :=
  if jTruthyV a then a else b

/-- JavaScript v.toUpperCase(): succeeds on strings, raises a TypeError
otherwise. -/
def jToUpper : JVal → Except String String
  | .str s => .ok (strUpper s)
  | _ => .error "TypeError: toUpperCase is not a function"

/-- JavaScript v.toLowerCase(): succeeds on strings, raises a TypeError
otherwise. -/
def jToLower : JVal → Except String String
  | .str s => .ok (strLower s)
  | _ => .error "TypeError: toLowerCase is not a function"

/-- List-of-character test: pat occurs at the start of s. -/
def startsWithL : List Char → List Char → Bool
  | [], _ => true
  | _ :: _, [] => false
  | a :: pat, b :: s => a == b && startsWithL pat s

/-- List-of-character substring test. -/
def hasSubL (pat : List Char) : List Char → Bool
  | [] => startsWithL pat []
  | b :: s => startsWithL pat (b :: s) || hasSubL pat (s)

/-- The regex test /mullvad/i.test(v): v is coerced to a string and the
match is case-insensitive. -/
def strHasMullvad (v : JVal) : Bool :=
  hasSubL "mullvad".toList (strLower (jvalToString v)).toList

/-- Keep a looked-up string only when it is truthy (non-empty), as the
JavaScript if-guards on table values do. -/
def truthyStr : Option String → Option String
  | some s => if s != "" then some s else none
  | none => none

/-- The friendly fallback map for common city codes
(fetch-relays.js, cityCodeToCityName). -/
def cityCodeToCityName : String → Option String
  | "sea" => some "Seattle"
  | "lax" => some "Los Angeles"
  | "tor" => some "Toronto"
  | "van" => some "Vancouver"
  | "sfo" => some "San Francisco"
  | "tia" => some "Tirana"
  | "dal" => some "Dallas"
  | "chi" => some "Chicago"
  | "nyc" => some "New York"
  | "adl" => some "Adelaide"
  | "mel" => some "Melbourne"
  | "per" => some "Perth"
  | "syd" => some "Sydney"
  | "yyc" => some "Calgary"
  | "mtr" => some "Montreal"
  | "par" => some "Paris"
  | "bru" => some "Brussels"
  | "vie" => some "Vienna"
  | "sof" => some "Sofia"
  | "hel" => some "Helsinki"
  | "cph" => some "Copenhagen"
  | "lon" => some "London"
  | "bos" => some "Boston"
  | "was" => some "Washington DC"
  | "den" => some "Denver"
  | "atl" => some "Atlanta"
  | "phx" => some "Phoenix"
  | "scl" => some "Santiago"
  | _ => none

/-- The built-in fallback country-code-to-name map
(fetch-relays.js, countryCodeToName). -/
def countryCodeToName : String → Option String
  | "US" => some "United States"
  | "GB" => some "United Kingdom"
  | "AU" => some "Australia"
  | "DE" => some "Germany"
  | "FR" => some "France"
  | "NL" => some "Netherlands"
  | "BE" => some "Belgium"
  | "CA" => some "Canada"
  | "DK" => some "Denmark"
  | "ES" => some "Spain"
  | "FI" => some "Finland"
  | "SE" => some "Sweden"
  | "GR" => some "Greece"
  | "AT" => some "Austria"
  | "IE" => some "Ireland"
  | "CH" => some "Switzerland"
  | "PT" => some "Portugal"
  | "CY" => some "Cyprus"
  | "EE" => some "Estonia"
  | "RO" => some "Romania"
  | "PL" => some "Poland"
  | "CZ" => some "Czechia"
  | "NO" => some "Norway"
  | "IT" => some "Italy"
  | "JP" => some "Japan"
  | "CN" => some "China"
  | "KR" => some "South Korea"
  | "MX" => some "Mexico"
  | "BR" => some "Brazil"
  | "CL" => some "Chile"
  | "CO" => some "Colombia"
  | "ZA" => some "South Africa"
  | "SG" => some "Singapore"
  | "NZ" => some "New Zealand"
  | "IL" => some "Israel"
  | _ => none

/-- The built-in country centroid table (fetch-relays.js, countryCentroids). -/
def countryCentroids : String → Option (JSNum × JSNum)
  | "United States" => some (.fin (37.0902 : ℚ), .fin (-95.7129 : ℚ))
  | "United Kingdom" => some (.fin (55.3781 : ℚ), .fin (-3.4360 : ℚ))
  | "Australia" => some (.fin (-25.2744 : ℚ), .fin (133.7751 : ℚ))
  | "Germany" => some (.fin (51.1657 : ℚ), .fin (10.4515 : ℚ))
  | "France" => some (.fin (46.2276 : ℚ), .fin (2.2137 : ℚ))
  | "Netherlands" => some (.fin (52.1400 : ℚ), .fin (5.2913 : ℚ))
  | "Canada" => some (.fin (56.1304 : ℚ), .fin (-106.3468 : ℚ))
  | _ => none

/-- An entry of the city-coordinate table: a JSON object whose lat and
lon properties may be absent or of any JSON type. -/
structure CoordEntry where
  lat : Option JVal := none
  lon : Option JVal := none
deriving DecidableEq, Repr

/-- The loaded mutable lookup state of fetch-relays.js, passed
explicitly: cityCoordsFromFile and countriesMap. -/
structure Ctx where
  cityCoords : String → Option CoordEntry
  countries : String → Option String

/-- getCountryNameFromCode (fetch-relays.js lines 156-162): empty code
gives Unknown; otherwise the loaded countries map, then the built-in
map, then Unknown, with truthiness guards on the table values. -/
def getCountryNameFromCode (countries : String → Option String) (code : String) : String :=
  if code == "" then "Unknown"
  else
    match truthyStr (countries (strUpper code)) with
    | some v => v
    | none =>
      match truthyStr (countryCodeToName (strUpper code)) with
      | some v => v
      | none => "Unknown"

/-- A city-coordinate table lookup as performed at each strategy of
resolveCoordinates: the entry must be present and its lat and lon
properties must have JavaScript type number (typeof checks); the pair
is returned verbatim. -/
def entryNums : CoordEntry → Option (JSNum × JSNum)
  | ⟨some (.num a), some (.num b)⟩ => some (a, b)
  | _ => none

/-- Presence plus typeof-number validation of a table entry under one key. -/
def lookupValid (t : String → Option CoordEntry) (key : String) : Option (JSNum × JSNum) :=
  match t key with
  | some v => entryNums v
  | none => none

/-- Strategy 1 of resolveCoordinates (fetch-relays.js lines 175-179):
the city-code key, guarded by the truthiness of cityCode, with the key
coerced to a string. -/
def codeLookupStep (ctx : Ctx) (cityCode : Option JVal) : Option (JSNum × JSNum) :=
  if jTruthy cityCode then lookupValid ctx.cityCoords (jvalToString (cityCode.getD .null))
  else none

/-- Strategy 3 of resolveCoordinates (fetch-relays.js lines 192-199):
the friendly name from the city-code map, used as a key, with the usual
truthiness guards. -/
def friendlyLookupStep (ctx : Ctx) (cityCode : Option JVal) : Option (JSNum × JSNum) :=
  if jTruthy cityCode then
    match truthyStr (cityCodeToCityName (jvalToString (cityCode.getD .null))) with
    | some friendly => lookupValid ctx.cityCoords friendly
    | none => none
  else none

/-- Strategy 4 of resolveCoordinates (fetch-relays.js lines 200-203):
the country centroid keyed by the resolved country display name, whose
value is returned without any typeof validation. -/
def centroidStep (ctx : Ctx) (countryCode : String) : Option (JSNum × JSNum) :=
  if getCountryNameFromCode ctx.countries countryCode != "" then
    countryCentroids (getCountryNameFromCode ctx.countries countryCode)
  else none

/-- The tail of resolveCoordinates after the city-name lookups
(fetch-relays.js lines 192-203): the friendly-name strategy, then the
country-centroid strategy. -/
def resolveTail (ctx : Ctx) (countryCode : String) (cityCode : Option JVal) :
    Option (JSNum × JSNum) :=
  match friendlyLookupStep ctx cityCode with
  | some p => some p
  | none => centroidStep ctx countryCode

/-- resolveCoordinates (fetch-relays.js lines 174-204). Strategy order:
city-code key, lowercased city-name key, exact city-name key, friendly
name from the city-code map, country centroid, else null. A truthy
non-string cityName raises a TypeError at the toLowerCase call. -/
def resolveCoordinates (ctx : Ctx) (countryCode : String) (cityCode : Option JVal)
    (cityName : JVal) : Except String (Option (JSNum × JSNum)) :=
  match codeLookupStep ctx cityCode with
  | some p => .ok (some p)
  | none =>
    if jTruthyV cityName then
      match jToLower cityName with
      | .error e => .error e
      | .ok key =>
        match lookupValid ctx.cityCoords key with
        | some p => .ok (some p)
        | none =>
          match lookupValid ctx.cityCoords (jvalToString cityName) with
          | some p => .ok (some p)
          | none => .ok (resolveTail ctx countryCode cityCode)
    else .ok (resolveTail ctx countryCode cityCode)

/-- A raw record of the Mullvad relays API response, as accessed by
mapApiRelayToCanonical. Every property may be absent and may hold any
JSON primitive: the upstream payload is untrusted. -/
structure RawRelay where
  hostname : Option JVal := none
  fqdn : Option JVal := none
  country_code : Option JVal := none
  country : Option JVal := none
  country_name : Option JVal := none
  city_code : Option JVal := none
  city_name : Option JVal := none
  type : Option JVal := none
  owned : Option JVal := none
  provider : Option JVal := none
  active : Option JVal := none
deriving DecidableEq, Repr

/-- The canonical relay record written by the pipeline. -/
structure CanonicalRelay where
  id : JVal
  country : JVal
  countryCode : String
  city : JVal
  lat : Option JSNum
  lon : Option JSNum
  ownership : String
  protocols : List String
  active : Bool
deriving DecidableEq, Repr

/-- The countryCode computation of mapApiRelayToCanonical (line 222):
(apiRelay.country_code || apiRelay.country || '').toUpperCase(). -/
def computeCountryCode (r : RawRelay) : Except String String :=
  jToUpper (jorV r.country_code (jorV r.country (.str "")))

/-- The lowercased type tag (lines 228): (apiRelay.type || '').toString().toLowerCase(). -/
def typeTag (r : RawRelay) : String :=
  strLower (jvalToString (jorV r.type (.str "")))

/-- The protocols computation of mapApiRelayToCanonical (lines 227-231). -/
def computeProtocols (r : RawRelay) : List String :=
  (if typeTag r == "wireguard" || typeTag r == "wg" then ["WireGuard"] else []) ++
  (if typeTag r == "openvpn" || typeTag r == "ovpn" then ["OpenVPN"] else [])

/-- The ownership computation of mapApiRelayToCanonical (lines 233-240):
a boolean owned field decides directly; otherwise the provider
heuristic, whose else branch yields Rented. -/
def computeOwnership (r : RawRelay) : String :=
  match r.owned with
  | some (.bool b) => if b then "Mullvad" else "Rented"
  | _ =>
    if jTruthy r.provider && strHasMullvad (r.provider.getD .null) then "Mullvad"
    else "Rented"

/-- The cityName computation of mapApiRelayToCanonical (line 225):
apiRelay.city_name, else the friendly map under city_code, else
city_code.toUpperCase() (a TypeError when city_code is a truthy
non-string), else the empty string. -/
def computeCityName (r : RawRelay) : Except String JVal :=
  if jTruthy r.city_name then .ok (r.city_name.getD .null)
  else if jTruthy r.city_code then
    match truthyStr (cityCodeToCityName (jvalToString (r.city_code.getD .null))) with
    | some friendly => .ok (.str friendly)
    | none =>
      match jToUpper (r.city_code.getD .null) with
      | .ok u => .ok (.str u)
      | .error e => .error e
  else .ok (.str "")

/-- The canonical record literal returned at lines 255-266 of
fetch-relays.js, given the already computed pieces. -/
def assembleRelay (ctx : Ctx) (r : RawRelay) (countryCode : String) (cityName : JVal)
    (coords : Option (JSNum × JSNum)) : CanonicalRelay :=
  { id := jorV r.hostname (jorV r.fqdn (.str ""))
    country := jorV r.country_name
      (vOr (.str (getCountryNameFromCode ctx.countries countryCode)) (.str "Unknown"))
    countryCode := if countryCode != "" then countryCode else "XX"
    city := vOr cityName (.str "")
    lat := coords.map Prod.fst
    lon := coords.map Prod.snd
    ownership := computeOwnership r
    protocols := computeProtocols r
    active := match r.active with | some (.bool b) => b | _ => true }

/-- mapApiRelayToCanonical (fetch-relays.js lines 220-267). A null array
element raises a TypeError at the first property access; the other
TypeError sites are the two toUpperCase calls and the resolver. -/
def mapApiRelayToCanonical (ctx : Ctx) (o : Option RawRelay) : Except String CanonicalRelay :=
  match o with
  | none => .error "TypeError: cannot read properties of null"
  | some r =>
    match computeCountryCode r with
    | .error e => .error e
    | .ok countryCode =>
      match computeCityName r with
      | .error e => .error e
      | .ok cityName =>
        match resolveCoordinates ctx countryCode r.city_code cityName with
        | .error e => .error e
        | .ok coords => .ok (assembleRelay ctx r countryCode cityName coords)

/-- The per-record remapping of the final array in ingest (lines 311-322).
The lat and lon branches mirror the typeof-number tests: a present value
is kept and an absent one becomes null. -/
def finalizeRelay (ctx : Ctx) (r : CanonicalRelay) : CanonicalRelay :=
  { id := r.id
    country := vOr r.country (.str (getCountryNameFromCode ctx.countries r.countryCode))
    countryCode := if r.countryCode != "" then r.countryCode else "XX"
    city := vOr r.city (.str "")
    lat := match r.lat with | some n => some n | none => none
    lon := match r.lon with | some n => some n | none => none
    ownership := if r.ownership != "" then r.ownership else "Mullvad"
    protocols := r.protocols
    active := r.active }

/-- apiRelays.map(mapApiRelayToCanonical) (line 308): the first record
whose normalization raises aborts the whole map with that error, exactly
as an uncaught exception aborts Array.prototype.map. The subsequent
filter(Boolean) keeps every element, since the mapper only ever returns
objects, which are truthy. -/
def mapAll (ctx : Ctx) : List (Option RawRelay) → Except String (List CanonicalRelay)
  | [] => .ok []
  | r :: rs =>
    match mapApiRelayToCanonical ctx r with
    | .error e => .error e
    | .ok c =>
      match mapAll ctx rs with
      | .error e => .error e
      | .ok cs => .ok (c :: cs)

/-- The outcome of fetchRelaysFromApi (lines 269-279): either the parsed
array of records, or a raised error (network failure, a non-ok HTTP
status, or a body that is not an array). -/
inductive FetchResult where
  | ok (relays : List (Option RawRelay))
  | fetchError (msg : String)

/-- The two persisted artifacts that ingest writes: the raw API cache
and the canonical relays output. none models an absent file. -/
structure FsState where
  rawCache : Option (List (Option RawRelay))
  relaysOut : Option (List CanonicalRelay)
deriving DecidableEq, Repr

/-- ingest (fetch-relays.js lines 281-343) as a transition on the
persisted artifacts, returning the new state and whether the run
succeeded. A fetch failure exits before any write. After a successful
fetch the raw payload is cached, then the records are mapped; an
uncaught normalization error rejects the ingest promise, so the
canonical output is never written in that case. -/
def ingestRun (ctx : Ctx) (fetched : FetchResult) (fs : FsState) : FsState × Bool :=
  match fetched with
  | .fetchError _ => (fs, false)
  | .ok apiRelays =>
    let fs1 : FsState := { rawCache := some apiRelays, relaysOut := fs.relaysOut }
    match mapAll ctx apiRelays with
    | .error _ => (fs1, false)
    | .ok sanitized =>
      ({ rawCache := fs1.rawCache, relaysOut := some (sanitized.map (finalizeRelay ctx)) }, true)

/-- Property assignment on the city-coordinate table object. -/
def updateTable (t : String → Option CoordEntry) (k : String) (v : CoordEntry) :
    String → Option CoordEntry :=
  fun key => if key == k then some v else t key

/-- One iteration of the update loop of update-city-coords.js main
(lines 245-261), restricted to its effect on the table: when the
geocoder returns a result, the exact key is assigned, and the lowercased
key is assigned only when not already present (checked after the exact
assignment). A geocoder miss leaves the table unchanged. -/
def updaterStep (geo : String → Option (ℚ × ℚ)) (t : String → Option CoordEntry)
    (city : String) : String → Option CoordEntry :=
  match geo city with
  | none => t
  | some (la, lo) =>
    let entry : CoordEntry := { lat := some (.num (.fin la)), lon := some (.num (.fin lo)) }
    let t1 := updateTable t city entry
    if (t1 (strLower city)).isSome then t1 else updateTable t1 (strLower city) entry

/-- The whole update loop over the selected cities, in order. -/
def updaterRun (geo : String → Option (ℚ × ℚ)) (cities : List String)
    (t : String → Option CoordEntry) : String → Option CoordEntry :=
  match cities with
  | [] => t
  | c :: cs => updaterRun geo cs (updaterStep geo t c)

/-- First-match-wins over a list of strategy results. -/
def firstSome : List (Option α) → Option α
  | [] => none
  | o :: os =>
    match o with
    | some a => some a
    | none => firstSome os

/-- Strategy 1 of the specified resolution order: the exact cityCode key
in the city-coordinate table. -/
def specStepCode (ctx : Ctx) (cityCode : Option JVal) : Option (JSNum × JSNum) :=
  if jTruthy cityCode then lookupValid ctx.cityCoords (jvalToString (cityCode.getD .null))
  else none

/-- Strategy 2 of the specified resolution order: the lowercased cityName key. -/
def specStepLowerName (ctx : Ctx) (cityName : String) : Option (JSNum × JSNum) :=
  if cityName != "" then lookupValid ctx.cityCoords (strLower cityName) else none

/-- Strategy 3 of the specified resolution order: the exact-case cityName key. -/
def specStepExactName (ctx : Ctx) (cityName : String) : Option (JSNum × JSNum) :=
  if cityName != "" then lookupValid ctx.cityCoords cityName else none

/-- Strategy 4 of the specified resolution order: the friendly name
obtained from the city-code table, used as a key. -/
def specStepFriendly (ctx : Ctx) (cityCode : Option JVal) : Option (JSNum × JSNum) :=
  if jTruthy cityCode then
    match truthyStr (cityCodeToCityName (jvalToString (cityCode.getD .null))) with
    | some friendly => lookupValid ctx.cityCoords friendly
    | none => none
  else none

/-- Strategy 5 of the specified resolution order: the country centroid
keyed by the resolved country display name. -/
def specStepCentroid (ctx : Ctx) (countryCode : String) : Option (JSNum × JSNum) :=
  if getCountryNameFromCode ctx.countries countryCode != "" then
    countryCentroids (getCountryNameFromCode ctx.countries countryCode)
  else none

/-- The resolution order as worded by the specification: the first match
in the fixed priority order of the five strategies, else unresolved,
with no merging of partial matches. -/
def resolveSpecOrder (ctx : Ctx) (countryCode : String) (cityCode : Option JVal)
    (cityName : String) : Option (JSNum × JSNum) :=
  firstSome
    [specStepCode ctx cityCode,
     specStepLowerName ctx cityName,
     specStepExactName ctx cityName,
     specStepFriendly ctx cityCode,
     specStepCentroid ctx countryCode]

/-- Whether a JavaScript value is a string. -/
def JVal.isString : JVal → Bool
  | .str _ => true
  | _ => false

/-- Whether a JavaScript number is finite. -/
def JSNum.isFinite : JSNum → Bool
  | .fin _ => true
  | _ => false

/-- An optional property that is either absent or holds a string. -/
def strOrAbsent : Option JVal → Bool
  | none => true
  | some v => v.isString

/-- A raw record whose string-like properties, when present, are in fact
strings. Under this shape discipline normalization cannot raise. -/
def WellTypedRaw (r : RawRelay) : Bool :=
  strOrAbsent r.hostname && strOrAbsent r.fqdn && strOrAbsent r.country_code &&
  strOrAbsent r.country && strOrAbsent r.country_name && strOrAbsent r.city_code &&
  strOrAbsent r.city_name

/-- The typed-schema invariant of a canonical record: id, country and
city are strings, countryCode is non-empty, lat and lon are resolved or
unresolved as a pair, ownership is one of the two allowed tags, and
protocols only draws from the two protocol names. -/
def wellFormedCanonical (rec : CanonicalRelay) : Bool :=
  rec.id.isString && rec.country.isString && (rec.countryCode != "") &&
  rec.city.isString && (rec.lat.isSome == rec.lon.isSome) &&
  (rec.ownership == "Mullvad" || rec.ownership == "Rented") &&
  rec.protocols.all (fun p => p == "WireGuard" || p == "OpenVPN")

/-- Removal of one key from a city-coordinate table. -/
def eraseKey (t : String → Option CoordEntry) (k : String) : String → Option CoordEntry :=
  fun key => if key == k then none else t key

/-- Whether an Except computation succeeded. -/
def isOkE : Except ε α → Bool
  | .ok _ => true
  | .error _ => false

/-- Empty lookup tables, as on a first run with no data files. -/
def emptyCtx : Ctx :=
  { cityCoords := fun _ => none, countries := fun _ => none }

/-- Equality of Except results is decidable when both components are. -/
instance : DecidableEq (Except String CanonicalRelay) := fun a b =>
  match a, b with
  | .ok x, .ok y => decidable_of_iff (x = y) (by simp)
  | .error x, .error y => decidable_of_iff (x = y) (by simp)
  | .ok _, .error _ => isFalse (by simp)
  | .error _, .ok _ => isFalse (by simp)

/-- Equality of resolver results is decidable. -/
instance : DecidableEq (Except String (Option (JSNum × JSNum))) := fun a b =>
  match a, b with
  | .ok x, .ok y => decidable_of_iff (x = y) (by simp)
  | .error x, .error y => decidable_of_iff (x = y) (by simp)
  | .ok _, .error _ => isFalse (by simp)
  | .error _, .ok _ => isFalse (by simp)

/-- A table holding one city entry under the code key ber, for concrete runs. -/
def ctxBer : Ctx :=
  { cityCoords := fun k =>
      if k == "ber" then some { lat := some (.num (.fin 1)), lon := some (.num (.fin 2)) }
      else none
    countries := fun _ => none }

/-- A raw record carrying only the city code ber. -/
def rawBer : RawRelay := { city_code := some (.str "ber") }

/-- The canonical record produced from rawBer under ctxBer. -/
def recBer : CanonicalRelay :=
  { id := .str "", country := .str "Unknown", countryCode := "XX", city := .str "BER",
    lat := some (.fin 1), lon := some (.fin 2), ownership := "Rented", protocols := [],
    active := true }

/-- A table whose entry under osl has an Infinity latitude: number-typed
but not finite. -/
def ctxOsl : Ctx :=
  { cityCoords := fun k =>
      if k == "osl" then some { lat := some (.num .inf), lon := some (.num (.fin 12)) }
      else none
    countries := fun _ => none }

/-- A malformed table entry: its lat property is the string NaN. -/
def badEntry : CoordEntry := { lat := some (.str "NaN"), lon := some (.num (.fin 12)) }

/-- A table holding badEntry under the key bad. -/
def ctxBad : Ctx :=
  { cityCoords := fun k => if k == "bad" then some badEntry else none
    countries := fun _ => none }

/-- A raw record carrying only an explicit owned boolean. -/
def rawMull : RawRelay := { owned := some (.bool true) }

/-- The canonical record produced from rawMull under empty tables. -/
def recMull : CanonicalRelay :=
  { id := .str "", country := .str "Unknown", countryCode := "XX", city := .str "",
    lat := none, lon := none, ownership := "Mullvad", protocols := [], active := true }

/-- A raw record carrying only a WireGuard type tag. -/
def rawWg : RawRelay := { type := some (.str "WireGuard") }

/-- The canonical record produced from rawWg under empty tables. -/
def recWg : CanonicalRelay :=
  { id := .str "", country := .str "Unknown", countryCode := "XX", city := .str "",
    lat := none, lon := none, ownership := "Rented", protocols := ["WireGuard"],
    active := true }

/-- A geocoder stub that answers every query. -/
def updGeoW : String → Option (ℚ × ℚ) := fun _ => some (10, 20)

/-- A city-coordinate table holding one pre-existing lowercase entry. -/
def updTableW : String → Option CoordEntry :=
  fun k =>
    if k == "london" then some { lat := some (.num (.fin 51)), lon := some (.num (.fin 0)) }
    else none

/-! Helper lemmas. -/

theorem mapAll_error_of_mem (ctx : Ctx) (rs : List (Option RawRelay)) (r : Option RawRelay)
    (hr : r ∈ rs) (hbad : isOkE (mapApiRelayToCanonical ctx r) = false) :
    ∃ e, mapAll ctx rs = .error e := by
  induction rs with
  | nil => cases hr
  | cons a as ih =>
    cases hr with
    | head =>
      cases hma : mapApiRelayToCanonical ctx r with
      | error e => exact ⟨e, by simp [mapAll, hma]⟩
      | ok c => rw [hma] at hbad; simp [isOkE] at hbad
    | tail _ hmem =>
      obtain ⟨e, he⟩ := ih hmem
      cases hma : mapApiRelayToCanonical ctx a with
      | error e2 => exact ⟨e2, by simp [mapAll, hma]⟩
      | ok c => exact ⟨e, by simp [mapAll, hma, he]⟩

theorem ingest_ok_error_case (ctx : Ctx) (rs : List (Option RawRelay)) (fs : FsState)
    (e : String) (he : mapAll ctx rs = .error e) :
    ingestRun ctx (.ok rs) fs = ({ rawCache := some rs, relaysOut := fs.relaysOut }, false) := by
  simp [ingestRun, he]

theorem ingest_ok_ok_case (ctx : Ctx) (rs : List (Option RawRelay)) (fs : FsState)
    (s : List CanonicalRelay) (hs : mapAll ctx rs = .ok s) :
    ingestRun ctx (.ok rs) fs =
      ({ rawCache := some rs, relaysOut := some (s.map (finalizeRelay ctx)) }, true) := by
  simp [ingestRun, hs]

theorem mapOk_fields (ctx : Ctx) (r : RawRelay) (rec : CanonicalRelay)
    (h : mapApiRelayToCanonical ctx (some r) = .ok rec) :
    ∃ cc cn coords, computeCountryCode r = .ok cc ∧ computeCityName r = .ok cn ∧
      resolveCoordinates ctx cc r.city_code cn = .ok coords ∧
      rec = assembleRelay ctx r cc cn coords := by
  cases hcc : computeCountryCode r with
  | error e =>
    rw [show mapApiRelayToCanonical ctx (some r) = .error e by
      simp [mapApiRelayToCanonical, hcc]] at h
    simp at h
  | ok cc =>
    cases hcn : computeCityName r with
    | error e =>
      rw [show mapApiRelayToCanonical ctx (some r) = .error e by
        simp [mapApiRelayToCanonical, hcc, hcn]] at h
      simp at h
    | ok cn =>
      cases hres : resolveCoordinates ctx cc r.city_code cn with
      | error e =>
        rw [show mapApiRelayToCanonical ctx (some r) = .error e by
          simp [mapApiRelayToCanonical, hcc, hcn, hres]] at h
        simp at h
      | ok coords =>
        rw [show mapApiRelayToCanonical ctx (some r) = .ok (assembleRelay ctx r cc cn coords) by
          simp [mapApiRelayToCanonical, hcc, hcn, hres]] at h
        rw [Except.ok.injEq] at h
        exact ⟨cc, cn, coords, rfl, rfl, hres, h.symm⟩

theorem lookupValid_some (t : String → Option CoordEntry) (key : String)
    (p : JSNum × JSNum) (h : lookupValid t key = some p) :
    ∃ e, t key = some e ∧ entryNums e = some p := by
  unfold lookupValid at h
  cases ht : t key with
  | none => rw [ht] at h; simp at h
  | some e => rw [ht] at h; exact ⟨e, rfl, h⟩

theorem codeLookupStep_some (ctx : Ctx) (cityCode : Option JVal) (p : JSNum × JSNum)
    (h : codeLookupStep ctx cityCode = some p) :
    ∃ k e, ctx.cityCoords k = some e ∧ entryNums e = some p := by
  unfold codeLookupStep at h
  split at h
  · obtain ⟨e, he, hn⟩ := lookupValid_some _ _ _ h
    exact ⟨_, e, he, hn⟩
  · simp at h

theorem friendlyLookupStep_some (ctx : Ctx) (cityCode : Option JVal) (p : JSNum × JSNum)
    (h : friendlyLookupStep ctx cityCode = some p) :
    ∃ k e, ctx.cityCoords k = some e ∧ entryNums e = some p := by
  unfold friendlyLookupStep at h
  split at h
  · split at h
    · obtain ⟨e, he, hn⟩ := lookupValid_some _ _ _ h
      exact ⟨_, e, he, hn⟩
    · simp at h
  · simp at h

theorem centroidStep_some (ctx : Ctx) (cc : String) (p : JSNum × JSNum)
    (h : centroidStep ctx cc = some p) : ∃ name, countryCentroids name = some p := by
  unfold centroidStep at h
  split at h
  · exact ⟨_, h⟩
  · simp at h

theorem resolveTail_some (ctx : Ctx) (cc : String) (cityCode : Option JVal)
    (p : JSNum × JSNum) (h : resolveTail ctx cc cityCode = some p) :
    (∃ k e, ctx.cityCoords k = some e ∧ entryNums e = some p) ∨
    (∃ name, countryCentroids name = some p) := by
  unfold resolveTail at h
  cases h3 : friendlyLookupStep ctx cityCode with
  | some q =>
    rw [h3] at h
    rw [Option.some.injEq] at h
    subst h
    exact Or.inl (friendlyLookupStep_some _ _ _ h3)
  | none =>
    rw [h3] at h
    exact Or.inr (centroidStep_some _ _ _ h)

theorem resolve_ok_some_sources (ctx : Ctx) (cc : String) (cityCode : Option JVal)
    (cn : JVal) (p : JSNum × JSNum)
    (h : resolveCoordinates ctx cc cityCode cn = .ok (some p)) :
    (∃ k e, ctx.cityCoords k = some e ∧ entryNums e = some p) ∨
    (∃ name, countryCentroids name = some p) := by
  cases h1 : codeLookupStep ctx cityCode with
  | some q =>
    rw [show resolveCoordinates ctx cc cityCode cn = .ok (some q) by
      simp [resolveCoordinates, h1]] at h
    rw [Except.ok.injEq, Option.some.injEq] at h
    subst h
    exact Or.inl (codeLookupStep_some _ _ _ h1)
  | none =>
    by_cases ht : jTruthyV cn = true
    · cases hlow : jToLower cn with
      | error e =>
        rw [show resolveCoordinates ctx cc cityCode cn = .error e by
          simp [resolveCoordinates, h1, ht, hlow]] at h
        simp at h
      | ok key =>
        cases h2 : lookupValid ctx.cityCoords key with
        | some q =>
          rw [show resolveCoordinates ctx cc cityCode cn = .ok (some q) by
            simp [resolveCoordinates, h1, ht, hlow, h2]] at h
          rw [Except.ok.injEq, Option.some.injEq] at h
          subst h
          obtain ⟨e, he, hn⟩ := lookupValid_some _ _ _ h2
          exact Or.inl ⟨_, e, he, hn⟩
        | none =>
          cases h3 : lookupValid ctx.cityCoords (jvalToString cn) with
          | some q =>
            rw [show resolveCoordinates ctx cc cityCode cn = .ok (some q) by
              simp [resolveCoordinates, h1, ht, hlow, h2, h3]] at h
            rw [Except.ok.injEq, Option.some.injEq] at h
            subst h
            obtain ⟨e, he, hn⟩ := lookupValid_some _ _ _ h3
            exact Or.inl ⟨_, e, he, hn⟩
          | none =>
            rw [show resolveCoordinates ctx cc cityCode cn = .ok (resolveTail ctx cc cityCode) by
              simp [resolveCoordinates, h1, ht, hlow, h2, h3]] at h
            rw [Except.ok.injEq] at h
            exact resolveTail_some _ _ _ _ h
    · rw [show resolveCoordinates ctx cc cityCode cn = .ok (resolveTail ctx cc cityCode) by
        simp [resolveCoordinates, h1, ht]] at h
      rw [Except.ok.injEq] at h
      exact resolveTail_some _ _ _ _ h

theorem resolve_eq_specOrder (ctx : Ctx) (cc : String) (cityCode : Option JVal) (s : String) :
    resolveCoordinates ctx cc cityCode (.str s) = .ok (resolveSpecOrder ctx cc cityCode s) := by
  have hcode : specStepCode ctx cityCode = codeLookupStep ctx cityCode := rfl
  have hfr : specStepFriendly ctx cityCode = friendlyLookupStep ctx cityCode := rfl
  have hce : specStepCentroid ctx cc = centroidStep ctx cc := rfl
  cases h1 : codeLookupStep ctx cityCode with
  | some q =>
    simp [resolveCoordinates, resolveSpecOrder, firstSome, hcode, h1]
  | none =>
    by_cases hs : s = ""
    · subst hs
      cases h4 : friendlyLookupStep ctx cityCode with
      | some q =>
        simp [resolveCoordinates, resolveSpecOrder, firstSome, hcode, hfr, hce, h1, h4,
          jTruthyV, specStepLowerName, specStepExactName, resolveTail]
      | none =>
        simp [resolveCoordinates, resolveSpecOrder, firstSome, hcode, hfr, hce, h1, h4,
          jTruthyV, specStepLowerName, specStepExactName, resolveTail]
        cases centroidStep ctx cc <;> rfl
    · have hs2 : (s != "") = true := by simpa using hs
      cases h2 : lookupValid ctx.cityCoords (strLower s) with
      | some q =>
        simp [resolveCoordinates, resolveSpecOrder, firstSome, hcode, h1, jTruthyV, hs2,
          jToLower, specStepLowerName, h2]
      | none =>
        cases h3 : lookupValid ctx.cityCoords s with
        | some q =>
          simp [resolveCoordinates, resolveSpecOrder, firstSome, hcode, h1, jTruthyV, hs2,
            jToLower, specStepLowerName, specStepExactName, h2, h3, jvalToString]
        | none =>
          cases h4 : friendlyLookupStep ctx cityCode with
          | some q =>
            simp [resolveCoordinates, resolveSpecOrder, firstSome, hcode, hfr, hce, h1, jTruthyV,
              hs2, jToLower, specStepLowerName, specStepExactName, h2, h3, h4, jvalToString,
              resolveTail]
          | none =>
            simp [resolveCoordinates, resolveSpecOrder, firstSome, hcode, hfr, hce, h1, jTruthyV,
              hs2, jToLower, specStepLowerName, specStepExactName, h2, h3, h4, jvalToString,
              resolveTail]
            cases centroidStep ctx cc <;> rfl

theorem jorV_isString (a : Option JVal) (b : JVal) (ha : strOrAbsent a = true)
    (hb : b.isString = true) : (jorV a b).isString = true := by
  cases a with
  | none => simpa [jorV] using hb
  | some v =>
    cases v with
    | str s =>
      simp only [jorV]
      split
      · rfl
      · exact hb
    | null => simp [strOrAbsent, JVal.isString] at ha
    | bool b2 => simp [strOrAbsent, JVal.isString] at ha
    | num n => simp [strOrAbsent, JVal.isString] at ha

theorem vOr_isString (a b : JVal) (ha : a.isString = true) (hb : b.isString = true) :
    (vOr a b).isString = true := by
  unfold vOr
  split
  · exact ha
  · exact hb

theorem computeCountryCode_ok (r : RawRelay) (h1 : strOrAbsent r.country_code = true)
    (h2 : strOrAbsent r.country = true) : ∃ u, computeCountryCode r = .ok u := by
  have ha : (jorV r.country_code (jorV r.country (JVal.str ""))).isString = true :=
    jorV_isString _ _ h1 (jorV_isString _ _ h2 rfl)
  cases hv : jorV r.country_code (jorV r.country (JVal.str "")) with
  | str s => exact ⟨strUpper s, by unfold computeCountryCode; rw [hv]; rfl⟩
  | null => rw [hv] at ha; simp [JVal.isString] at ha
  | bool b => rw [hv] at ha; simp [JVal.isString] at ha
  | num n => rw [hv] at ha; simp [JVal.isString] at ha

theorem computeCityName_ok (r : RawRelay) (h1 : strOrAbsent r.city_name = true)
    (h2 : strOrAbsent r.city_code = true) : ∃ s, computeCityName r = .ok (.str s) := by
  unfold computeCityName
  by_cases hcn : jTruthy r.city_name = true
  · rw [if_pos hcn]
    cases hv : r.city_name with
    | none => rw [hv] at hcn; simp [jTruthy] at hcn
    | some v =>
      rw [hv] at h1
      cases v with
      | str s => exact ⟨s, rfl⟩
      | null => simp [strOrAbsent, JVal.isString] at h1
      | bool b => simp [strOrAbsent, JVal.isString] at h1
      | num n => simp [strOrAbsent, JVal.isString] at h1
  · rw [if_neg hcn]
    by_cases hcc : jTruthy r.city_code = true
    · rw [if_pos hcc]
      cases hv : r.city_code with
      | none => rw [hv] at hcc; simp [jTruthy] at hcc
      | some v =>
        rw [hv] at h2
        cases v with
        | str s =>
          simp only [Option.getD_some]
          cases hf : truthyStr (cityCodeToCityName (jvalToString (JVal.str s))) with
          | some friendly => exact ⟨friendly, by simp [hf]⟩
          | none => exact ⟨strUpper s, by simp [hf, jToUpper]⟩
        | null => simp [strOrAbsent, JVal.isString] at h2
        | bool b => simp [strOrAbsent, JVal.isString] at h2
        | num n => simp [strOrAbsent, JVal.isString] at h2
    · rw [if_neg hcc]
      exact ⟨"", rfl⟩

theorem computeOwnership_cases (r : RawRelay) :
    computeOwnership r = "Mullvad" ∨ computeOwnership r = "Rented" := by
  unfold computeOwnership
  split
  · split
    · exact Or.inl rfl
    · exact Or.inr rfl
  · split
    · exact Or.inl rfl
    · exact Or.inr rfl

theorem computeProtocols_iff (r : RawRelay) :
    (computeProtocols r = ["WireGuard"] ↔ (typeTag r = "wireguard" ∨ typeTag r = "wg")) ∧
    (computeProtocols r = ["OpenVPN"] ↔ (typeTag r = "openvpn" ∨ typeTag r = "ovpn")) ∧
    (computeProtocols r = [] ∨ computeProtocols r = ["WireGuard"] ∨
      computeProtocols r = ["OpenVPN"]) := by
  by_cases hw : typeTag r = "wireguard" <;> by_cases hg : typeTag r = "wg" <;>
    by_cases ho : typeTag r = "openvpn" <;> by_cases hv : typeTag r = "ovpn" <;>
    simp_all [computeProtocols]

theorem lookupValid_eraseKey (t : String → Option CoordEntry) (key : String) (e : CoordEntry)
    (hpresent : t key = some e) (hmal : entryNums e = none) (k : String) :
    lookupValid (eraseKey t key) k = lookupValid t k := by
  by_cases hk : k = key
  · subst hk
    simp [lookupValid, eraseKey, hpresent, hmal]
  · simp [lookupValid, eraseKey, hk]

theorem resolve_eraseKey (ctx : Ctx) (key : String) (e : CoordEntry)
    (hpresent : ctx.cityCoords key = some e) (hmal : entryNums e = none)
    (cc : String) (cityCode : Option JVal) (cn : JVal) :
    resolveCoordinates { cityCoords := eraseKey ctx.cityCoords key, countries := ctx.countries }
      cc cityCode cn = resolveCoordinates ctx cc cityCode cn := by
  have hl : ∀ k, lookupValid (eraseKey ctx.cityCoords key) k = lookupValid ctx.cityCoords k :=
    lookupValid_eraseKey _ _ _ hpresent hmal
  unfold resolveCoordinates codeLookupStep resolveTail friendlyLookupStep centroidStep
  simp only [hl]

theorem updaterStep_frame (geo : String → Option (ℚ × ℚ)) (t : String → Option CoordEntry)
    (c k : String) (h1 : k ≠ c) (h2 : k ≠ strLower c) :
    updaterStep geo t c k = t k := by
  cases hg : geo c with
  | none => simp [updaterStep, hg]
  | some p =>
    obtain ⟨la, lo⟩ := p
    simp only [updaterStep, hg]
    split
    · simp [updateTable, h1]
    · simp [updateTable, h1, h2]

theorem updaterStep_keep (geo : String → Option (ℚ × ℚ)) (t : String → Option CoordEntry)
    (c k : String) (hpres : (t k).isSome = true) (hne : k ≠ c) :
    updaterStep geo t c k = t k := by
  cases hg : geo c with
  | none => simp [updaterStep, hg]
  | some p =>
    obtain ⟨la, lo⟩ := p
    simp only [updaterStep, hg]
    by_cases hc : ((updateTable t c
        { lat := some (.num (.fin la)), lon := some (.num (.fin lo)) }) (strLower c)).isSome = true
    · rw [if_pos hc]
      simp [updateTable, hne]
    · rw [if_neg hc]
      by_cases hk : k = strLower c
      · exact absurd (by subst hk; simpa [updateTable, hne] using hpres) hc
      · simp [updateTable, hne, hk]

theorem updaterRun_frame (geo : String → Option (ℚ × ℚ)) (cities : List String) (k : String) :
    ∀ t, (∀ c ∈ cities, k ≠ c ∧ k ≠ strLower c) → updaterRun geo cities t k = t k := by
  induction cities with
  | nil => intro t _; rfl
  | cons c cs ih =>
    intro t h
    have hc := h c (by simp)
    have hrw : updaterRun geo (c :: cs) t = updaterRun geo cs (updaterStep geo t c) := rfl
    rw [hrw, ih (updaterStep geo t c) (fun x hx => h x (by simp [hx]))]
    exact updaterStep_frame geo t c k hc.1 hc.2

theorem updaterRun_keep (geo : String → Option (ℚ × ℚ)) (cities : List String) (k : String) :
    ∀ t, (∀ c ∈ cities, k ≠ c) → (t k).isSome = true → updaterRun geo cities t k = t k := by
  induction cities with
  | nil => intro t _ _; rfl
  | cons c cs ih =>
    intro t h hpres
    have hne := h c (by simp)
    have hstep : updaterStep geo t c k = t k := updaterStep_keep geo t c k hpres hne
    have hrw : updaterRun geo (c :: cs) t = updaterRun geo cs (updaterStep geo t c) := rfl
    rw [hrw, ih (updaterStep geo t c) (fun x hx => h x (by simp [hx]))
      (by rw [hstep]; exact hpres), hstep]

theorem ifXX_ne (cc : String) : ((if cc != "" then cc else "XX") != "") = true := by
  by_cases h : cc = ""
  · subst h; simp
  · simp [h]

theorem coordsPairSome (coords : Option (JSNum × JSNum)) :
    ((coords.map Prod.fst).isSome == (coords.map Prod.snd).isSome) = true := by
  cases coords <;> rfl

theorem ownership_beq (r : RawRelay) :
    (computeOwnership r == "Mullvad" || computeOwnership r == "Rented") = true := by
  rcases computeOwnership_cases r with h | h <;> simp [h]

theorem protocols_all_known (r : RawRelay) :
    (computeProtocols r).all (fun p => p == "WireGuard" || p == "OpenVPN") = true := by
  rcases (computeProtocols_iff r).2.2 with h | h | h <;> simp [h]

/-! Claim theorems. -/

/-- C1: for every city-coordinate table and countries table and every
(countryCode, cityCode, cityName) input with a string city name, the
resolver returns exactly the first match of the fixed priority chain
given by resolveSpecOrder: exact cityCode key, lowercased cityName key,
exact-case cityName key, friendly name from the city-code table, country
centroid keyed by the resolved country display name, else Unresolved,
with no merging of partial matches; in particular, when the table holds
both an exact-code entry and a lowercased-name entry for the same city,
the code entry wins. -/
theorem resolver_first_match_priority (ctx : Ctx) (countryCode : String)
    (cityCode : Option JVal) (cityName : String) :
    resolveCoordinates ctx countryCode cityCode (.str cityName) =
      .ok (resolveSpecOrder ctx countryCode cityCode cityName) :=
  resolve_eq_specOrder ctx countryCode cityCode cityName

/-- C2 counterexample: a record with neither an owned boolean nor any
provider field normalizes with ownership Rented, refuting the claimed
default of Mullvad in the no-signal case. -/
theorem ownership_no_signal_rented :
    mapApiRelayToCanonical emptyCtx (some {}) =
      .ok { id := .str "", country := .str "Unknown", countryCode := "XX", city := .str "",
            lat := none, lon := none, ownership := "Rented", protocols := [], active := true } ∧
    "Rented" ≠ "Mullvad" :=
  ⟨by decide, by decide⟩

/-- C2 amended: ownership is Mullvad for owned true and Rented for owned
false; without an owned boolean the provider heuristic applies
(case-insensitive substring mullvad gives Mullvad, anything else gives
Rented); and with neither an owned boolean nor a provider field the
result is Rented, not Mullvad. -/
theorem ownership_mapping_rules (ctx : Ctx) (r : RawRelay) (rec : CanonicalRelay)
    (h : mapApiRelayToCanonical ctx (some r) = .ok rec) :
    (r.owned = some (.bool true) → rec.ownership = "Mullvad") ∧
    (r.owned = some (.bool false) → rec.ownership = "Rented") ∧
    ((∀ b, r.owned ≠ some (.bool b)) → jTruthy r.provider = true →
      strHasMullvad (r.provider.getD .null) = true → rec.ownership = "Mullvad") ∧
    ((∀ b, r.owned ≠ some (.bool b)) →
      (jTruthy r.provider = false ∨ strHasMullvad (r.provider.getD .null) = false) →
      rec.ownership = "Rented") ∧
    (r.owned = none → r.provider = none → rec.ownership = "Rented") := by
  obtain ⟨cc, cn, coords, hcc, hcn, hres, hrec⟩ := mapOk_fields ctx r rec h
  subst hrec
  simp only [assembleRelay]
  refine ⟨?_, ?_, ?_, ?_, ?_⟩
  · intro ho; simp [computeOwnership, ho]
  · intro ho; simp [computeOwnership, ho]
  · intro hnb hp hm
    unfold computeOwnership
    cases ho : r.owned with
    | none => simp [hp, hm]
    | some v =>
      cases v with
      | bool b => exact absurd ho (hnb b)
      | null => simp [hp, hm]
      | num n => simp [hp, hm]
      | str s => simp [hp, hm]
  · intro hnb hd
    unfold computeOwnership
    cases ho : r.owned with
    | none =>
      rcases hd with hp | hm
      · simp [hp]
      · simp [hm]
    | some v =>
      cases v with
      | bool b => exact absurd ho (hnb b)
      | null =>
        rcases hd with hp | hm
        · simp [hp]
        · simp [hm]
      | num n =>
        rcases hd with hp | hm
        · simp [hp]
        · simp [hm]
      | str s =>
        rcases hd with hp | hm
        · simp [hp]
        · simp [hm]
  · intro ho hp
    simp [computeOwnership, ho, hp, jTruthy]

/-- C2 witness: the amended rules applied to a concrete record with an
explicit owned boolean. -/
theorem ownership_mapping_rules_witness :
    mapApiRelayToCanonical emptyCtx (some rawMull) = .ok recMull ∧
    recMull.ownership = "Mullvad" :=
  ⟨by decide, (ownership_mapping_rules emptyCtx rawMull recMull (by decide)).1 rfl⟩

/-- C3 counterexample: a collection holding one good record and one null
record: the good record alone normalizes, yet the run aborts and the
canonical output is not written, refuting the claimed per-record skip. -/
theorem single_bad_record_aborts :
    isOkE (mapApiRelayToCanonical emptyCtx (some { hostname := some (.str "relay1") })) = true ∧
    (ingestRun emptyCtx
      (.ok [some { hostname := some (.str "relay1") }, none]) ⟨none, none⟩).1.relaysOut = none ∧
    (ingestRun emptyCtx
      (.ok [some { hostname := some (.str "relay1") }, none]) ⟨none, none⟩).2 = false :=
  ⟨by decide, by decide, by decide⟩

/-- C3 amended: after a successful fetch, a collection holding any
record whose normalization raises makes the whole run fail: the raw
cache is still written, but the canonical output is left exactly as it
was and the run reports failure, dropping the good records too. -/
theorem normalization_error_aborts_run (ctx : Ctx) (rs : List (Option RawRelay)) (fs : FsState)
    (h : ∃ r ∈ rs, isOkE (mapApiRelayToCanonical ctx r) = false) :
    (ingestRun ctx (.ok rs) fs).1.relaysOut = fs.relaysOut ∧
    (ingestRun ctx (.ok rs) fs).1.rawCache = some rs ∧
    (ingestRun ctx (.ok rs) fs).2 = false := by
  obtain ⟨r, hmem, hbad⟩ := h
  obtain ⟨e, he⟩ := mapAll_error_of_mem ctx rs r hmem hbad
  rw [ingest_ok_error_case ctx rs fs e he]
  exact ⟨rfl, rfl, rfl⟩

/-- C3 witness: the amended behaviour at a one-element collection whose
only record is null. -/
theorem normalization_error_aborts_run_witness :
    (∃ r ∈ ([none] : List (Option RawRelay)),
      isOkE (mapApiRelayToCanonical emptyCtx r) = false) ∧
    ((ingestRun emptyCtx (.ok [none]) ⟨none, none⟩).1.relaysOut = none ∧
     (ingestRun emptyCtx (.ok [none]) ⟨none, none⟩).1.rawCache = some [none] ∧
     (ingestRun emptyCtx (.ok [none]) ⟨none, none⟩).2 = false) :=
  ⟨by decide, normalization_error_aborts_run emptyCtx [none] ⟨none, none⟩ (by decide)⟩

/-- C4: when the upstream fetch fails, the run reports failure and both
persisted artifacts, the canonical output and the raw cache, are left
exactly as they were. -/
theorem fetch_failure_leaves_state_unchanged (ctx : Ctx) (msg : String) (fs : FsState) :
    ingestRun ctx (.fetchError msg) fs = (fs, false) := rfl

/-- C5 counterexample: an arbitrary object input with a numeric hostname
normalizes to a record whose id is a number, not a string, refuting the
claim that every schema field is correctly typed for arbitrary inputs. -/
theorem nonstring_hostname_breaks_typing :
    mapApiRelayToCanonical emptyCtx (some { hostname := some (.num (.fin 42)) }) =
      .ok { id := .num (.fin 42), country := .str "Unknown", countryCode := "XX",
            city := .str "", lat := none, lon := none, ownership := "Rented",
            protocols := [], active := true } ∧
    JVal.isString (.num (.fin 42)) = false :=
  ⟨by decide, by decide⟩

/-- C5 amended: for every raw record whose string-like properties are,
when present, strings, normalization succeeds and yields a record in
which every schema field is present and typed: id, country and city are
strings, countryCode is non-empty (XX when absent), lat and lon are
resolved or unresolved only as a pair, ownership is Mullvad or Rented,
and protocols only draws from the two protocol names. -/
theorem welltyped_normalize_produces_welltyped (ctx : Ctx) (r : RawRelay)
    (h : WellTypedRaw r = true) :
    ∃ rec, mapApiRelayToCanonical ctx (some r) = .ok rec ∧ wellFormedCanonical rec = true := by
  simp only [WellTypedRaw, Bool.and_eq_true] at h
  obtain ⟨⟨⟨⟨⟨⟨hh, hf⟩, hcc⟩, hco⟩, hcn5⟩, hccd⟩, hcyn⟩ := h
  obtain ⟨cc, hccok⟩ := computeCountryCode_ok r hcc hco
  obtain ⟨s, hcnok⟩ := computeCityName_ok r hcyn hccd
  have hres := resolve_eq_specOrder ctx cc r.city_code s
  refine ⟨assembleRelay ctx r cc (.str s) (resolveSpecOrder ctx cc r.city_code s), ?_, ?_⟩
  · simp [mapApiRelayToCanonical, hccok, hcnok, hres]
  · simp only [wellFormedCanonical, assembleRelay, Bool.and_eq_true]
    refine ⟨⟨⟨⟨⟨⟨?_, ?_⟩, ?_⟩, ?_⟩, ?_⟩, ?_⟩, ?_⟩
    · exact jorV_isString _ _ hh (jorV_isString _ _ hf rfl)
    · exact jorV_isString _ _ hcn5 (vOr_isString _ _ rfl rfl)
    · exact ifXX_ne cc
    · exact vOr_isString _ _ rfl rfl
    · exact coordsPairSome _
    · exact ownership_beq r
    · exact protocols_all_known r

/-- C5 witness: the empty record is well typed and normalizes to a
well-formed canonical record. -/
theorem welltyped_normalize_produces_welltyped_witness :
    WellTypedRaw ({} : RawRelay) = true ∧
    ∃ rec, mapApiRelayToCanonical emptyCtx (some ({} : RawRelay)) = .ok rec ∧
      wellFormedCanonical rec = true :=
  ⟨by decide, welltyped_normalize_produces_welltyped emptyCtx {} (by decide)⟩

/-- C6: in every successfully normalized record the coordinates are
resolved or unresolved only as a pair: either both lat and lon are null,
or both carry numbers taken verbatim from a genuine city-coordinate
table entry or from the built-in centroid table; in particular (0,0)
can appear only when it is itself such an entry, never as a fallback. -/
theorem coords_resolved_as_pair_from_entry (ctx : Ctx) (r : RawRelay) (rec : CanonicalRelay)
    (h : mapApiRelayToCanonical ctx (some r) = .ok rec) :
    (rec.lat = none ∧ rec.lon = none) ∨
    (∃ la lo, rec.lat = some la ∧ rec.lon = some lo ∧
      ((∃ k e, ctx.cityCoords k = some e ∧ entryNums e = some (la, lo)) ∨
       (∃ name, countryCentroids name = some (la, lo)))) := by
  obtain ⟨cc, cn, coords, hcc, hcn, hres, hrec⟩ := mapOk_fields ctx r rec h
  subst hrec
  simp only [assembleRelay]
  cases coords with
  | none => exact Or.inl ⟨rfl, rfl⟩
  | some p =>
    obtain ⟨la, lo⟩ := p
    exact Or.inr ⟨la, lo, rfl, rfl, resolve_ok_some_sources ctx cc r.city_code cn (la, lo) hres⟩

/-- C6 witness: a record whose city code hits a concrete table entry
resolves to exactly that entry as a pair. -/
theorem coords_resolved_as_pair_from_entry_witness :
    mapApiRelayToCanonical ctxBer (some rawBer) = .ok recBer ∧
    ((recBer.lat = none ∧ recBer.lon = none) ∨
     (∃ la lo, recBer.lat = some la ∧ recBer.lon = some lo ∧
       ((∃ k e, ctxBer.cityCoords k = some e ∧ entryNums e = some (la, lo)) ∨
        (∃ name, countryCentroids name = some (la, lo))))) :=
  ⟨by decide, coords_resolved_as_pair_from_entry ctxBer rawBer recBer (by decide)⟩

/-- C7 counterexample: a table entry with an Infinity latitude is
number-typed but not finite, yet the resolver returns it as a match
instead of falling through, refuting the finiteness requirement. -/
theorem nonfinite_entry_matches :
    resolveCoordinates ctxOsl "NO" (some (.str "osl")) (.str "Oslo") =
      .ok (some (.inf, .fin 12)) ∧ JSNum.isFinite .inf = false :=
  ⟨by decide, rfl⟩

/-- C7 amended: an entry whose lat or lon property is not of JavaScript
number type is treated as a non-match: resolution proceeds exactly as if
the entry were absent, for every countryCode, cityCode and cityName.
Number-typed but non-finite values, however, do count as matches. -/
theorem malformed_entry_behaves_as_absent (ctx : Ctx) (key : String) (e : CoordEntry)
    (hpresent : ctx.cityCoords key = some e) (hmal : entryNums e = none)
    (cc : String) (cityCode : Option JVal) (cn : JVal) :
    resolveCoordinates ⟨eraseKey ctx.cityCoords key, ctx.countries⟩ cc cityCode cn =
      resolveCoordinates ctx cc cityCode cn :=
  resolve_eraseKey ctx key e hpresent hmal cc cityCode cn

/-- C7 witness: removing the concrete malformed entry (a string NaN
latitude) does not change resolution. -/
theorem malformed_entry_behaves_as_absent_witness :
    ctxBad.cityCoords "bad" = some badEntry ∧ entryNums badEntry = none ∧
    resolveCoordinates ⟨eraseKey ctxBad.cityCoords "bad", ctxBad.countries⟩ "XX"
      (some (.str "bad")) (.str "Nowhere") =
      resolveCoordinates ctxBad "XX" (some (.str "bad")) (.str "Nowhere") :=
  ⟨by decide, by decide,
   malformed_entry_behaves_as_absent ctxBad "bad" badEntry (by decide) (by decide)
     "XX" (some (.str "bad")) (.str "Nowhere")⟩

/-- C8: for a fixed upstream response and fixed lookup tables, a
successful run writes a canonical output and raw cache that do not
depend on the pre-existing file state at all, so two runs produce
identical artifacts; the output embeds no run-dependent data. -/
theorem ingest_output_independent_of_prior_state (ctx : Ctx) (rs : List (Option RawRelay))
    (fs1 fs2 : FsState) (h : (ingestRun ctx (.ok rs) fs1).2 = true) :
    (ingestRun ctx (.ok rs) fs1).1.relaysOut = (ingestRun ctx (.ok rs) fs2).1.relaysOut ∧
    (ingestRun ctx (.ok rs) fs1).1.rawCache = (ingestRun ctx (.ok rs) fs2).1.rawCache := by
  cases hm : mapAll ctx rs with
  | error e => rw [ingest_ok_error_case ctx rs fs1 e hm] at h; simp at h
  | ok s =>
    rw [ingest_ok_ok_case ctx rs fs1 s hm, ingest_ok_ok_case ctx rs fs2 s hm]
    exact ⟨rfl, rfl⟩

/-- C8 witness: a successful one-record run from two different prior
states yields the same artifacts. -/
theorem ingest_output_independent_of_prior_state_witness :
    (ingestRun emptyCtx (.ok [some ({} : RawRelay)]) ⟨none, none⟩).2 = true ∧
    ((ingestRun emptyCtx (.ok [some ({} : RawRelay)]) ⟨none, none⟩).1.relaysOut =
       (ingestRun emptyCtx (.ok [some ({} : RawRelay)]) ⟨some [], some []⟩).1.relaysOut ∧
     (ingestRun emptyCtx (.ok [some ({} : RawRelay)]) ⟨none, none⟩).1.rawCache =
       (ingestRun emptyCtx (.ok [some ({} : RawRelay)]) ⟨some [], some []⟩).1.rawCache) :=
  ⟨by decide,
   ingest_output_independent_of_prior_state emptyCtx [some ({} : RawRelay)]
     ⟨none, none⟩ ⟨some [], some []⟩ (by decide)⟩

/-- C9: in every successfully normalized record the protocols list has
at most one element: it is the WireGuard singleton exactly when the
lowercased type tag is wireguard or wg, the OpenVPN singleton exactly
when it is openvpn or ovpn, and empty otherwise; both protocols can
never appear together. -/
theorem protocols_at_most_one (ctx : Ctx) (r : RawRelay) (rec : CanonicalRelay)
    (h : mapApiRelayToCanonical ctx (some r) = .ok rec) :
    (rec.protocols = ["WireGuard"] ↔ (typeTag r = "wireguard" ∨ typeTag r = "wg")) ∧
    (rec.protocols = ["OpenVPN"] ↔ (typeTag r = "openvpn" ∨ typeTag r = "ovpn")) ∧
    (rec.protocols = [] ∨ rec.protocols = ["WireGuard"] ∨ rec.protocols = ["OpenVPN"]) ∧
    rec.protocols.length ≤ 1 := by
  obtain ⟨cc, cn, coords, hcc, hcn, hres, hrec⟩ := mapOk_fields ctx r rec h
  subst hrec
  simp only [assembleRelay]
  obtain ⟨h1, h2, h3⟩ := computeProtocols_iff r
  refine ⟨h1, h2, h3, ?_⟩
  rcases h3 with hp | hp | hp <;> simp [hp]

/-- C9 witness: a WireGuard-tagged record yields exactly the WireGuard
singleton. -/
theorem protocols_at_most_one_witness :
    mapApiRelayToCanonical emptyCtx (some rawWg) = .ok recWg ∧
    recWg.protocols = ["WireGuard"] :=
  ⟨by decide,
   (protocols_at_most_one emptyCtx rawWg recWg (by decide)).1.mpr (Or.inl (by decide))⟩

/-- C10: a run of the lookup-table updater leaves every key untouched
other than a processed city name or its lowercased form; and a key that
was already present and is not the exact name of any processed city
keeps exactly its prior value, since the lowercased-key write is guarded
by presence: only exact-name keys are ever overwritten. -/
theorem updater_touches_only_processed_keys (geo : String → Option (ℚ × ℚ))
    (cities : List String) (t : String → Option CoordEntry) (k : String) :
    ((∀ c ∈ cities, k ≠ c ∧ k ≠ strLower c) → updaterRun geo cities t k = t k) ∧
    ((∀ c ∈ cities, k ≠ c) → (t k).isSome = true → updaterRun geo cities t k = t k) :=
  ⟨fun h => updaterRun_frame geo cities k t h,
   fun h hp => updaterRun_keep geo cities k t h hp⟩

/-- C10 witness: processing LONDON with a geocoder hit does not touch an
unrelated key, and does not overwrite the pre-existing lowercase london
entry. -/
theorem updater_touches_only_processed_keys_witness :
    updaterRun updGeoW ["LONDON"] updTableW "Paris" = updTableW "Paris" ∧
    updaterRun updGeoW ["LONDON"] updTableW "london" = updTableW "london" :=
  ⟨(updater_touches_only_processed_keys updGeoW ["LONDON"] updTableW "Paris").1 (by decide),
   (updater_touches_only_processed_keys updGeoW ["LONDON"] updTableW "london").2
     (by decide) (by decide)⟩
